import Mathlib

/-!
Verification of the video acquisition & clip-extraction pipeline of the
clip-farm backend (`backend/app/services/youtube.py`,
`backend/app/services/video_processing.py`,
`backend/app/services/file_manager.py`,
`backend/app/api/v1/endpoints/clip.py`).

Pure string/number computations are embedded directly; the effectful parts
(subprocess invocations, database access, the filesystem) are embedded as
deterministic functions of an explicit environment record describing the
outcome of each external step, mirroring the control flow of the Python
source statement by statement.  Python `float` arithmetic is modelled by
exact rational arithmetic (`ℚ`); for the quantities handled here (seconds
with millisecond precision) the double rounding error is far below the
millisecond tolerances of interest.
-/

/- ## Python string and number primitives -/

/-- Characters removed by Python's default `str.strip()` (ASCII fragment;
Unicode whitespace is not modelled). -/
def isPySpace (c : Char) : Bool :=
  c == ' ' || c == '\t' || c == '\n' || c == '\r' || c == '\x0b' || c == '\x0c'

/-- Python `s.strip()` on a character list. -/
def pyStrip (l : List Char) : List Char :=
  ((l.dropWhile isPySpace).reverse.dropWhile isPySpace).reverse

/-- Value of a string of decimal digits, most significant first. -/
def digitsVal (l : List Char) : ℕ :=
  l.foldl (fun acc c => 10 * acc + (c.toNat - 48)) 0

/-- Python `int(s)` restricted to the ASCII decimal fragment: optional
surrounding whitespace, an optional sign, then one or more decimal digits.
(Underscore separators and non-ASCII digits are not modelled.) -/
def pyIntCore (l : List Char) : Option ℤ :=
  match pyStrip l with
  | [] => none
  | c :: ds =>
    if c = '+' then
      if ds ≠ [] ∧ ds.all Char.isDigit then some (digitsVal ds) else none
    else if c = '-' then
      if ds ≠ [] ∧ ds.all Char.isDigit then some (-(digitsVal ds : ℤ)) else none
    else if (c :: ds).all Char.isDigit then some (digitsVal (c :: ds)) else none

/-- Python `int(s)` on a string. -/
def pyInt (s : String) : Option ℤ := pyIntCore s.data

/-- Mantissa of a Python float literal: `digits [. digits*]` or `. digits+`,
as an exact rational. -/
def parseMantissa (l : List Char) : Option ℚ :=
  match l.drop (l.takeWhile Char.isDigit).length with
  | [] =>
    if l.takeWhile Char.isDigit ≠ [] then
      some (digitsVal (l.takeWhile Char.isDigit) : ℚ)
    else none
  | c :: fp =>
    if c = '.' ∧ fp.all Char.isDigit ∧ (l.takeWhile Char.isDigit ≠ [] ∨ fp ≠ []) then
      some ((digitsVal (l.takeWhile Char.isDigit) : ℚ) +
        (digitsVal fp : ℚ) / (10 : ℚ) ^ fp.length)
    else none

/-- Exponent part of a Python float literal: optional sign then digits. -/
def pyExpCore (l : List Char) : Option ℤ :=
  match l with
  | [] => none
  | c :: ds =>
    if c = '+' then
      if ds ≠ [] ∧ ds.all Char.isDigit then some (digitsVal ds) else none
    else if c = '-' then
      if ds ≠ [] ∧ ds.all Char.isDigit then some (-(digitsVal ds : ℤ)) else none
    else if (c :: ds).all Char.isDigit then some (digitsVal (c :: ds)) else none

/-- Body of a Python float literal after the optional sign:
mantissa with an optional `e`/`E` exponent. -/
def pyFloatBody (l : List Char) : Option ℚ :=
  match l.drop (l.takeWhile (fun c => c.isDigit || c == '.')).length with
  | [] => parseMantissa (l.takeWhile (fun c => c.isDigit || c == '.'))
  | e :: ex =>
    if e = 'e' ∨ e = 'E' then
      match parseMantissa (l.takeWhile (fun c => c.isDigit || c == '.')), pyExpCore ex with
      | some m, some k => some (m * (10 : ℚ) ^ k)
      | _, _ => none
    else none

/-- Python `float(s)` restricted to finite decimal literals: optional
surrounding whitespace, optional sign, decimal mantissa, optional exponent.
(`inf`, `nan` and underscore separators are not modelled.) -/
def pyFloatCore (l : List Char) : Option ℚ :=
  match pyStrip l with
  | [] => pyFloatBody []
  | c :: body =>
    if c = '+' then pyFloatBody body
    else if c = '-' then (pyFloatBody body).map (fun q => -q)
    else pyFloatBody (c :: body)

/-- Python `float(s)` on a string. -/
def pyFloat (s : String) : Option ℚ := pyFloatCore s.data

/- ## Time parser (`VideoProcessingService._time_to_seconds` /
`_seconds_to_time_format`, backend/app/services/video_processing.py:176-198) -/

/-- Error message produced by `_time_to_seconds` (the Python code interpolates
the underlying `ValueError` text; only the constant part is modelled). -/
def invalidTimeMsg (s : String) : String := "Invalid time format " ++ s

/-- Shallow embedding of `VideoProcessingService._time_to_seconds`:
splits on `':'` (Python `time_str.split(':')` with a one-character separator),
then converts `MM:SS` as `int(minutes) * 60 + float(seconds)` and `HH:MM:SS`
as `int(hours) * 3600 + int(minutes) * 60 + float(seconds)`; any other
component count, or a component rejected by `int`/`float`, raises
`InvalidTimeFormatException`, modelled as `.error`. -/
def timeToSeconds (s : String) : Except String ℚ :=
  match s.data.splitOn ':' with
  | [m, sec] =>
    match pyIntCore m, pyFloatCore sec with
    | some mi, some sf => .ok ((mi : ℚ) * 60 + sf)
    | _, _ => .error (invalidTimeMsg s)
  | [h, m, sec] =>
    match pyIntCore h, pyIntCore m, pyFloatCore sec with
    | some hi, some mi, some sf => .ok ((hi : ℚ) * 3600 + (mi : ℚ) * 60 + sf)
    | _, _, _ => .error (invalidTimeMsg s)
  | _ => .error (invalidTimeMsg s)

/-- Decimal digit character for a value below ten. -/
def digitChar (d : ℕ) : Char := Char.ofNat (48 + d)

/-- Decimal digits of a natural number, most significant first;
fuel-driven so that it is structurally recursive. -/
def natDigitsAux : ℕ → ℕ → List Char
  | 0, _ => []
  | fuel + 1, n => if n = 0 then [] else natDigitsAux fuel (n / 10) ++ [digitChar (n % 10)]

/-- Decimal rendering of a natural number (as produced by Python's `%d`). -/
def natDigits (n : ℕ) : List Char :=
  if n = 0 then ['0'] else natDigitsAux n n

/-- Zero-padding on the left to a minimum width. -/
def padZeros (l : List Char) (w : ℕ) : List Char :=
  List.replicate (w - l.length) '0' ++ l

/-- Python `f"{z:02d}"`: minimum width two, zero padded, the sign counted
inside the width. -/
def fmtInt2 (z : ℤ) : List Char :=
  if z < 0 then '-' :: padZeros (natDigits z.natAbs) 1
  else padZeros (natDigits z.natAbs) 2

/-- Round a rational to the nearest integer, ties to even — the rounding
applied when a value is formatted with a fixed number of decimals. -/
def rndHalfEven (q : ℚ) : ℤ :=
  if q - ⌊q⌋ < 1 / 2 then ⌊q⌋
  else if 1 / 2 < q - ⌊q⌋ then ⌊q⌋ + 1
  else if ⌊q⌋ % 2 = 0 then ⌊q⌋ else ⌊q⌋ + 1

/-- Exactly three decimal digits for a value below 1000 (the fractional part
printed by `"%.3f"`). -/
def fmtFrac3 (m : ℕ) : List Char :=
  [digitChar (m / 100 % 10), digitChar (m / 10 % 10), digitChar (m % 10)]

/-- Python `f"{v:06.3f}"`: three decimals (ties to even), zero padded to a
minimum total width of six, the sign counted inside the width. -/
def fmtFloat63 (q : ℚ) : List Char :=
  if rndHalfEven (1000 * q) < 0 then
    '-' :: padZeros (natDigits ((rndHalfEven (1000 * q)).natAbs / 1000) ++
      '.' :: fmtFrac3 ((rndHalfEven (1000 * q)).natAbs % 1000)) 5
  else
    padZeros (natDigits ((rndHalfEven (1000 * q)).natAbs / 1000) ++
      '.' :: fmtFrac3 ((rndHalfEven (1000 * q)).natAbs % 1000)) 6

/-- Shallow embedding of `VideoProcessingService._seconds_to_time_format`:
`hours = int(seconds // 3600)`, `minutes = int((seconds % 3600) // 60)`,
`secs = seconds % 60`, rendered as `f"{hours:02d}:{minutes:02d}:{secs:06.3f}"`.
Python float floor-division and modulo are `⌊x / y⌋` and `x - y * ⌊x / y⌋`. -/
def secondsToTimeFormat (x : ℚ) : String :=
  String.mk
    (fmtInt2 ⌊x / 3600⌋ ++
      (':' :: (fmtInt2 ⌊(x - 3600 * ⌊x / 3600⌋) / 60⌋ ++
        (':' :: fmtFloat63 (x - 60 * ⌊x / 60⌋)))))

/- ## Identifier extractor (`YouTubeService.extract_video_id`,
backend/app/services/youtube.py:20-35) -/

/-- Character class `[0-9A-Za-z_-]` of the video-id patterns. -/
def idClass (c : Char) : Bool := c.isAlphanum || c == '_' || c == '-'

/-- Regex piece `[0-9A-Za-z_-]{n}`: exactly the next `n` characters of the
class, returned as the capture; fails otherwise. -/
def takeClass : ℕ → List Char → Option (List Char)
  | 0, _ => some []
  | _ + 1, [] => none
  | n + 1, c :: cs => if idClass c then (takeClass n cs).map (c :: ·) else none

/-- Leftmost search for the first pattern
`(?:v=|\/)([0-9A-Za-z_-]{11}).*` of `extract_video_id`: at each position the
alternatives `v=` then `/` are tried, each followed by an 11-character class
capture (the trailing `.*` never fails). -/
def searchP1 : List Char → Option (List Char)
  | [] => none
  | c :: rest =>
    if c == 'v' then
      match rest with
      | [] => none
      | c2 :: after =>
        if c2 == '=' then
          match takeClass 11 after with
          | some g => some g
          | none => searchP1 rest
        else searchP1 rest
    else if c == '/' then
      match takeClass 11 rest with
      | some g => some g
      | none => searchP1 rest
    else searchP1 rest

/-- Leftmost search for a literal followed by an 11-character class capture
(patterns 2-4 of `extract_video_id`). -/
def searchLit (lit : List Char) : List Char → Option (List Char)
  | [] => none
  | c :: rest =>
    if lit.isPrefixOf (c :: rest) then
      match takeClass 11 ((c :: rest).drop lit.length) with
      | some g => some g
      | none => searchLit lit rest
    else searchLit lit rest

/-- Literal of the second pattern `(?:embed\/)([0-9A-Za-z_-]{11})`. -/
def embedLit : List Char := ['e', 'm', 'b', 'e', 'd', '/']

/-- Literal of the third pattern `(?:v=)([0-9A-Za-z_-]{11})`. -/
def vEqLit : List Char := ['v', '=']

/-- Literal of the fourth pattern `youtu\.be\/([0-9A-Za-z_-]{11})`. -/
def youtuBeLit : List Char := ['y', 'o', 'u', 't', 'u', '.', 'b', 'e', '/']

/-- Error message raised by `extract_video_id`. -/
def invalidURLMsg (url : String) : String :=
  "Could not extract video ID from URL: " ++ url

/-- Shallow embedding of `YouTubeService.extract_video_id`: the four
`re.search` patterns are tried in order and the first capture is returned;
when none matches, `InvalidURLException` is raised (`.error`).  The
`Optional[str]` return annotation is kept as the `Option String` inside
`.ok`: a successful return is always `.ok (some _)`. -/
def extractVideoId (url : String) : Except String (Option String) :=
  match searchP1 url.data with
  | some g => .ok (some (String.mk g))
  | none =>
    match searchLit embedLit url.data with
    | some g => .ok (some (String.mk g))
    | none =>
      match searchLit vEqLit url.data with
      | some g => .ok (some (String.mk g))
      | none =>
        match searchLit youtuBeLit url.data with
        | some g => .ok (some (String.mk g))
        | none => .error (invalidURLMsg url)

/- ## Acquirer (`YouTubeService.download_video` /
`_download_with_fallback`, backend/app/services/youtube.py:72-223) -/

/-- Outcome of one external download-tool invocation: whether spawning or
awaiting the subprocess raised, the exit status, the captured standard
error, and whether a downloaded file with an accepted container extension
is found in the uploads directory afterwards. -/
structure StepOutcome where
  raised : Bool
  returncode : ℤ
  stderr : String
  fileFound : Bool
deriving DecidableEq

/-- Environment of one `download_video` call: the outcome of each strategy
of the fallback chain, in declared order. -/
structure DownloadEnv where
  primary : StepOutcome
  firefox : StepOutcome
  edge : StepOutcome
  safari : StepOutcome
  noCookies : StepOutcome
deriving DecidableEq

/-- Steps of the download fallback chain. -/
inductive DlStep
  | primary
  | firefox
  | edge
  | safari
  | noCookies
deriving DecidableEq

/-- Full fallback chain in declared order. -/
def downloadChainSteps : List DlStep :=
  [DlStep.primary, DlStep.firefox, DlStep.edge, DlStep.safari, DlStep.noCookies]

/-- Python `stderr.decode('utf-8') if stderr else "Unknown error"`. -/
def errText (o : StepOutcome) : String :=
  if o.stderr = "" then "Unknown error" else o.stderr

/-- Python `pat in s` on character lists: `pat` occurs as a contiguous
substring. -/
def containsSub (pat : List Char) : List Char → Bool
  | [] => pat.isPrefixOf []
  | c :: rest => pat.isPrefixOf (c :: rest) || containsSub pat rest

/-- Condition of youtube.py:110 deciding whether the fallback chain is
entered: the bot-detection sentence occurs in the error text, or
`"cookies"` occurs in its lowercased form. -/
def triggersFallback (err : String) : Bool :=
  containsSub "Sign in to confirm you\x27re not a bot".data err.data ||
    containsSub "cookies".data (err.data.map Char.toLower)

/-- One step of `_download_with_fallback` succeeds when the subprocess did
not raise, exited with status zero, and a downloaded file was found. -/
def tryStep (o : StepOutcome) : Bool :=
  !o.raised && o.returncode == 0 && o.fileFound

/-- Shallow embedding of `YouTubeService._download_with_fallback`: the
browser list `["firefox", "edge", "safari"]` is tried in order (a raised
exception or a missing output file just moves to the next browser), then a
final cookie-less lowest-quality attempt; `VideoDownloadException` is
raised (`false`) only when that last attempt also fails.  The result is the
list of attempted steps together with the success flag. -/
def downloadWithFallback (env : DownloadEnv) : List DlStep × Bool :=
  if tryStep env.firefox then ([DlStep.firefox], true)
  else if tryStep env.edge then ([DlStep.firefox, DlStep.edge], true)
  else if tryStep env.safari then ([DlStep.firefox, DlStep.edge, DlStep.safari], true)
  else ([DlStep.firefox, DlStep.edge, DlStep.safari, DlStep.noCookies], tryStep env.noCookies)

/-- Shallow embedding of `YouTubeService.download_video`: the primary
authenticated attempt runs first; on a nonzero exit status the fallback
chain is entered only when `triggersFallback` holds on the error text,
otherwise `VideoDownloadException` is raised at once (youtube.py:114); a
raised exception or a missing output file after a zero exit status also
fails without entering the chain (youtube.py:126,131-133, every failure is
re-wrapped into `VideoDownloadException`). -/
def downloadVideo (env : DownloadEnv) : List DlStep × Bool :=
  if env.primary.raised then ([DlStep.primary], false)
  else if env.primary.returncode == 0 then ([DlStep.primary], env.primary.fileFound)
  else if triggersFallback (errText env.primary) then
    (DlStep.primary :: (downloadWithFallback env).1, (downloadWithFallback env).2)
  else ([DlStep.primary], false)

/- ## Acquisition cache (`YouTubeService.get_video_record` /
`save_video_record`, backend/app/services/youtube.py:37-69) and the
orchestrating endpoint (`create_clip`, backend/app/api/v1/endpoints/clip.py) -/

/-- Cache record (`VideoDownload`, backend/app/models/video.py); the
server-generated timestamp is not modelled. -/
structure VideoRec where
  videoId : String
  filePath : String
  fileSize : Option ℤ
  duration : Option ℤ
  isActive : Bool
deriving DecidableEq

/-- Outcome of the database query inside `get_video_record`: an active row,
no row, or an exception from the storage layer. -/
inductive LookupEnv
  | found (r : VideoRec)
  | missing
  | dbError (msg : String)
deriving DecidableEq

/-- Shallow embedding of `YouTubeService.get_video_record`: the whole query
is wrapped in `try/except Exception`; a missing row yields `None`, and an
underlying storage failure is caught, logged and also returned as `None`
(youtube.py:48-50) — the `Except` codomain records that the function itself
never raises. -/
def getVideoRecord : LookupEnv → Except String (Option VideoRec)
  | LookupEnv.found r => .ok (some r)
  | LookupEnv.missing => .ok none
  | LookupEnv.dbError _ => .ok none

/-- Outcome of the clip-extraction call made by the endpoint. -/
inductive ExtractOutcome
  | ok
  | badTime
  | procFail
deriving DecidableEq

/-- Environment of one request to the `create_clip` endpoint. -/
structure RequestEnv where
  urlOk : Bool
  lookup : LookupEnv
  fileOnDisk : Bool
  downloadOk : Bool
  saveOk : Bool
  commitOk : Bool
  extract : ExtractOutcome
deriving DecidableEq

/-- HTTP-level outcome of the endpoint, one constructor per handler of
clip.py:88-106. -/
inductive ClipHttp
  | success
  | badRequestURL
  | badRequestTime
  | failDownload
  | failProcessing
  | internalError
deriving DecidableEq

/-- Mapping of the extraction call's outcome to the endpoint response. -/
def runExtraction : ExtractOutcome → ClipHttp
  | ExtractOutcome.ok => ClipHttp.success
  | ExtractOutcome.badTime => ClipHttp.badRequestTime
  | ExtractOutcome.procFail => ClipHttp.failProcessing

/-- Shallow embedding of the `create_clip` endpoint
(backend/app/api/v1/endpoints/clip.py:24-106).  The second component
records whether the extraction step was reached.  A failure of
`save_video_record` re-raises the underlying storage exception
(youtube.py:66-69), which none of the specific handlers match, so it is
caught by the final `except Exception` handler as a generic internal error;
the same holds for the `db.commit()` of the re-download branch. -/
def createClipEndpoint (env : RequestEnv) : ClipHttp × Bool :=
  if !env.urlOk then (ClipHttp.badRequestURL, false)
  else
    match getVideoRecord env.lookup with
    | .error _ => (ClipHttp.internalError, false)
    | .ok none =>
      if env.downloadOk then
        if env.saveOk then (runExtraction env.extract, true)
        else (ClipHttp.internalError, false)
      else (ClipHttp.failDownload, false)
    | .ok (some _) =>
      if env.fileOnDisk then (runExtraction env.extract, true)
      else if env.downloadOk then
        if env.commitOk then (runExtraction env.extract, true)
        else (ClipHttp.internalError, false)
      else (ClipHttp.failDownload, false)

/- ## File utility (`FileManagerService.cleanup_file`,
backend/app/services/file_manager.py:13-24) -/

/-- Environment of one `cleanup_file` call: whether the path exists and
whether `os.remove` raises. -/
structure CleanupEnv where
  pathExists : Bool
  removeRaises : Bool
deriving DecidableEq

/-- Shallow embedding of `FileManagerService.cleanup_file`: inside
`try/except`, an existing path is removed and `True` returned; a missing
path returns `False` (file_manager.py:21); an exception from the removal is
caught, logged and reported as `False`.  The function itself never raises:
it is total into `Bool`. -/
def cleanupFile (env : CleanupEnv) : Bool :=
  match (if env.pathExists then
           (if env.removeRaises then Except.error "OSError" else Except.ok true)
         else Except.ok false : Except String Bool) with
  | .ok b => b
  | .error _ => false

/- ## Clip extractor (`VideoProcessingService.create_clip` /
`validate_time_range`, backend/app/services/video_processing.py:16-143,
259-284) -/

/-- Configured maximum clip duration, `settings.max_video_duration = 3600`
(backend/app/config.py:18). -/
def maxVideoDuration : ℚ := 3600

/-- Outcome of one media-tool invocation: exit status, and whether the
output file exists afterwards and its size. -/
structure PhaseOutcome where
  returncode : ℤ
  outExists : Bool
  outSize : ℕ
deriving DecidableEq

/-- Environment of one `create_clip` call: the outcome of the stream-copy
phase and of the re-encode phase. -/
structure ClipEnv where
  copy : PhaseOutcome
  encode : PhaseOutcome
deriving DecidableEq

/-- Success criterion of the fast path (video_processing.py:61-65): exit
status zero, output file exists, and its size exceeds the 1000-byte sanity
threshold. -/
def streamCopySuccess (o : PhaseOutcome) : Bool :=
  o.returncode == 0 && o.outExists && decide (1000 < o.outSize)

/-- Observable invocations of the extraction phases. -/
inductive ClipEvent
  | runCopy
  | deleteFailedOutput
  | runEncode
deriving DecidableEq

/-- Tool invocations performed by `create_clip` once the range checks have
passed: the stream-copy phase always runs; when its success criterion
fails, any existing partial output is deleted (video_processing.py:72-73)
and then the re-encode phase runs. -/
def clipEvents (env : ClipEnv) : List ClipEvent :=
  if streamCopySuccess env.copy then [ClipEvent.runCopy]
  else
    ClipEvent.runCopy ::
      (if env.copy.outExists then [ClipEvent.deleteFailedOutput] else []) ++
        [ClipEvent.runEncode]

/-- The process whose exit status and output the final checks of
`create_clip` examine: the copy phase when it met the criterion, the
re-encode phase otherwise. -/
def clipFinal (env : ClipEnv) : PhaseOutcome :=
  if streamCopySuccess env.copy then env.copy else env.encode

/-- Error kinds that can escape `create_clip`: the except clause of
video_processing.py:132-143 re-raises `InvalidTimeFormatException` and
`VideoProcessingException` unchanged and wraps anything else into
`VideoProcessingException`, so these two are the only kinds. -/
inductive ClipErr
  | invalidTime
  | processing
deriving DecidableEq

/-- Shallow embedding of `VideoProcessingService.create_clip`
(video_processing.py:16-143): both time strings are parsed
(`InvalidTimeFormatException` propagates), `duration <= 0` and
`duration > settings.max_video_duration` are rejected before any tool
invocation, then the two-phase extraction runs and the final exit
status / output-file checks decide the result.  The non-fatal ffprobe
validation (lines 122-127, warning only) and the best-effort cleanup of the
output file on failure are not observable in the result and are not
modelled. -/
def createClip (startT endT : String) (env : ClipEnv) :
    List ClipEvent × Except ClipErr Unit :=
  match timeToSeconds startT with
  | .error _ => ([], .error ClipErr.invalidTime)
  | .ok s =>
    match timeToSeconds endT with
    | .error _ => ([], .error ClipErr.invalidTime)
    | .ok e =>
      if e - s ≤ 0 then ([], .error ClipErr.invalidTime)
      else if maxVideoDuration < e - s then ([], .error ClipErr.invalidTime)
      else if (clipFinal env).returncode ≠ 0 then
        (clipEvents env, .error ClipErr.processing)
      else if (clipFinal env).outExists = false ∨ (clipFinal env).outSize = 0 then
        (clipEvents env, .error ClipErr.processing)
      else (clipEvents env, .ok ())

/-- Shallow embedding of `VideoProcessingService.validate_time_range`
(video_processing.py:259-284).  This function rejects negative time values,
but no caller in the repository ever invokes it.  Python's truthiness test
`if video_duration and ...` skips the duration check when the supplied
duration is `None` or `0.0`. -/
def validateTimeRange (startT endT : String) (videoDuration : Option ℚ) :
    Except ClipErr Bool :=
  match timeToSeconds startT with
  | .error _ => .error ClipErr.invalidTime
  | .ok s =>
    match timeToSeconds endT with
    | .error _ => .error ClipErr.invalidTime
    | .ok e =>
      if s < 0 ∨ e < 0 then .error ClipErr.invalidTime
      else if e ≤ s then .error ClipErr.invalidTime
      else if (match videoDuration with
               | some d => !(d == 0) && decide (d < e)
               | none => false) then .error ClipErr.invalidTime
      else if maxVideoDuration < e - s then .error ClipErr.invalidTime
      else .ok true

/-- Predicate for a valid `HH:MM:SS.mmm` time string: three colon-separated
components, the first two nonempty digit strings, the third a nonempty
digit string followed by a dot and exactly three digits. -/
def isHMSmmm (s : String) : Bool :=
  match s.data.splitOn ':' with
  | [h, m, sec] =>
    !h.isEmpty && h.all Char.isDigit && !m.isEmpty && m.all Char.isDigit &&
      !(sec.takeWhile Char.isDigit).isEmpty &&
      (match sec.dropWhile Char.isDigit with
       | c :: fp => c == '.' && fp.length == 3 && fp.all Char.isDigit
       | [] => false)
  | _ => false

/-- Download environment refuting C1: the primary attempt fails with an
error text signalling neither bot detection nor cookies, so youtube.py:114
raises at once even though other strategies (here: firefox) would succeed. -/
def c1Env : DownloadEnv :=
  { primary := { raised := false, returncode := 1,
                 stderr := "ERROR: [youtube] abc: Video unavailable",
                 fileFound := false },
    firefox := { raised := false, returncode := 0, stderr := "", fileFound := true },
    edge := { raised := false, returncode := 0, stderr := "", fileFound := true },
    safari := { raised := false, returncode := 0, stderr := "", fileFound := true },
    noCookies := { raised := false, returncode := 0, stderr := "", fileFound := true } }

/-- Download environment in which the primary failure does signal bot
detection and every fallback step fails as well. -/
def c1TrigEnv : DownloadEnv :=
  { primary := { raised := false, returncode := 1,
                 stderr := "Sign in to confirm you\x27re not a bot",
                 fileFound := false },
    firefox := { raised := false, returncode := 1, stderr := "no cookies", fileFound := false },
    edge := { raised := true, returncode := 0, stderr := "", fileFound := false },
    safari := { raised := false, returncode := 0, stderr := "", fileFound := false },
    noCookies := { raised := false, returncode := 1, stderr := "x", fileFound := false } }

/-- Clip environment in which both phases report success. -/
def clipOkEnv : ClipEnv :=
  { copy := { returncode := 0, outExists := true, outSize := 5000 },
    encode := { returncode := 0, outExists := true, outSize := 5000 } }

/-- Clip environment in which the stream-copy phase exits nonzero with no
output file and the re-encode phase succeeds. -/
def clipCopyFailEnv : ClipEnv :=
  { copy := { returncode := 1, outExists := false, outSize := 0 },
    encode := { returncode := 0, outExists := true, outSize := 5000 } }

/- ## Theorems -/

/-- C9 counterexample: deleting an already-absent file is reported as
failure, not success — `cleanup_file` returns `False` when the path does
not exist (file_manager.py:21). -/
theorem cleanupFile_absent_counterexample :
    cleanupFile { pathExists := false, removeRaises := false } = false := rfl

/-- C9 (amended): the file-deletion helper never raises (it is total into
`Bool`, every exception being caught inside) and returns `true` exactly
when the file existed and its removal did not raise; an already-absent path
yields `false`, and an I/O failure during removal is logged and reported as
`false`. -/
theorem cleanupFile_spec (env : CleanupEnv) :
    cleanupFile env = (env.pathExists && !env.removeRaises) := by
  cases env with
  | mk p r => cases p <;> cases r <;> rfl

/-- C4 counterexample: an underlying storage failure during lookup is not
propagated as an error — `get_video_record` catches every exception and
returns `None` (youtube.py:48-50). -/
theorem getVideoRecord_dbError_counterexample :
    getVideoRecord (LookupEnv.dbError "connection refused") = .ok none := rfl

/-- C4 (amended): the cache lookup returns the active record when one
exists and `None` when none exists, never raising on a missing row; an
underlying storage failure is also caught, logged, and reported as `None`
(indistinguishable from a cache miss) rather than propagated. -/
theorem getVideoRecord_spec :
    (∀ r, getVideoRecord (LookupEnv.found r) = .ok (some r)) ∧
    getVideoRecord LookupEnv.missing = .ok none ∧
    (∀ m, getVideoRecord (LookupEnv.dbError m) = .ok none) :=
  ⟨fun _ => rfl, rfl, fun _ => rfl⟩

/-- C3 counterexample: with a cache miss, a successful download and a
failing cache save, the endpoint answers with a generic internal error and
never reaches the extraction step — it does not proceed to serve the clip. -/
theorem createClipEndpoint_saveFail_counterexample :
    createClipEndpoint
        { urlOk := true, lookup := LookupEnv.missing, fileOnDisk := false,
          downloadOk := true, saveOk := false, commitOk := true,
          extract := ExtractOutcome.ok } = (ClipHttp.internalError, false) ∧
      (ClipHttp.internalError, false) ≠ ((ClipHttp.success, true) : ClipHttp × Bool) :=
  ⟨rfl, by decide⟩

/-- C3 (amended): after a successful download, a failure of the cache save
operation is fatal to the request: `save_video_record` rolls back and
re-raises the storage exception (youtube.py:66-69), the endpoint's final
generic handler maps it to a 500 internal error, and the extraction step is
never invoked. -/
theorem createClipEndpoint_saveFail (fileOnDisk commitOk : Bool) (ex : ExtractOutcome) :
    createClipEndpoint
        { urlOk := true, lookup := LookupEnv.missing, fileOnDisk := fileOnDisk,
          downloadOk := true, saveOk := false, commitOk := commitOk, extract := ex } =
      (ClipHttp.internalError, false) := rfl

/-- C1 counterexample: `download_video` can raise `VideoDownloadException`
after the primary attempt alone — when the primary failure's error text
matches neither the bot-detection sentence nor `"cookies"`, youtube.py:114
raises without trying the remaining strategies. -/
theorem downloadVideo_counterexample :
    ¬ (∀ env : DownloadEnv,
        (downloadVideo env).2 = false → (downloadVideo env).1 = downloadChainSteps) := by
  intro h
  have hc := h c1Env (by decide)
  exact absurd hc (by decide)

/-- C1 (amended): when the primary attempt fails with an error text that
signals bot detection or cookie problems, the fallback chain is entered and
`VideoDownloadException` is raised only after every strategy — primary,
each alternate browser context in declared order, and the final
unauthenticated attempt — has been attempted; a primary failure without
that signal aborts at once with only the primary step attempted. -/
theorem downloadVideo_exhaustion (env : DownloadEnv)
    (h0 : env.primary.raised = false) (h1 : env.primary.returncode ≠ 0) :
    (triggersFallback (errText env.primary) = true →
      (downloadVideo env).2 = false → (downloadVideo env).1 = downloadChainSteps) ∧
    (triggersFallback (errText env.primary) = false →
      downloadVideo env = ([DlStep.primary], false)) := by
  have hbeq : (env.primary.returncode == 0) = false := by
    simp [h1]
  constructor
  · intro ht hfail
    unfold downloadVideo at hfail ⊢
    rw [h0, hbeq, ht] at hfail ⊢
    simp only [Bool.false_eq_true, if_false, if_true] at hfail ⊢
    unfold downloadWithFallback at hfail ⊢
    split_ifs at hfail ⊢
    all_goals simp_all [downloadChainSteps]
  · intro ht
    unfold downloadVideo
    rw [h0, hbeq, ht]
    simp

/-- Closed instance of the C1 amended theorem: in `c1TrigEnv` the chain is
exhausted and all five steps were attempted. -/
theorem downloadVideo_exhaustion_witness :
    (downloadVideo c1TrigEnv).1 = downloadChainSteps :=
  (downloadVideo_exhaustion c1TrigEnv (by decide) (by decide)).1 (by decide) (by decide)

/-- Concrete evaluation: parsing the time string 0:10. -/
theorem tsEval_0_10 : timeToSeconds "0:10" = .ok 10 := by
  have h : "0:10".data.splitOn ':' = [['0'], ['1', '0']] := by decide
  have h1 : pyIntCore ['0'] = some 0 := by decide
  have h2 : pyFloatCore ['1', '0'] = some 10 := by decide
  simp only [timeToSeconds, h, h1, h2]
  norm_num

/-- Concrete evaluation: parsing the time string 0:40. -/
theorem tsEval_0_40 : timeToSeconds "0:40" = .ok 40 := by
  have h : "0:40".data.splitOn ':' = [['0'], ['4', '0']] := by decide
  have h1 : pyIntCore ['0'] = some 0 := by decide
  have h2 : pyFloatCore ['4', '0'] = some 40 := by decide
  simp only [timeToSeconds, h, h1, h2]
  norm_num

/-- Concrete evaluation: parsing the time string 0:30. -/
theorem tsEval_0_30 : timeToSeconds "0:30" = .ok 30 := by
  have h : "0:30".data.splitOn ':' = [['0'], ['3', '0']] := by decide
  have h1 : pyIntCore ['0'] = some 0 := by decide
  have h2 : pyFloatCore ['3', '0'] = some 30 := by decide
  simp only [timeToSeconds, h, h1, h2]
  norm_num

/-- Concrete evaluation: the time string -2:00 parses successfully to a
negative value (Python `int("-2")` accepts the sign). -/
theorem tsEval_neg2_00 : timeToSeconds "-2:00" = .ok (-120) := by
  have h : "-2:00".data.splitOn ':' = [['-', '2'], ['0', '0']] := by decide
  have h1 : pyIntCore ['-', '2'] = some (-2) := by decide
  have h2 : pyFloatCore ['0', '0'] = some 0 := by decide
  simp only [timeToSeconds, h, h1, h2]
  norm_num

/-- Membership of the re-encode invocation in the event trace is equivalent
to failure of the stream-copy success criterion. -/
theorem clipEvents_runEncode_mem (env : ClipEnv) :
    ClipEvent.runEncode ∈ clipEvents env ↔ streamCopySuccess env.copy = false := by
  unfold clipEvents
  cases h : streamCopySuccess env.copy <;> cases he : env.copy.outExists <;> simp [he]

/-- C2: once the range checks pass, the re-encode phase is invoked iff the
stream-copy phase fails its success criterion (exit zero AND output exists
AND size above the sanity threshold, video_processing.py:61-65); on success
only the copy phase runs; on failure an existing partial output is deleted
before the re-encode phase runs. -/
theorem createClip_twoPhase (startT endT : String) (env : ClipEnv) (s e : ℚ)
    (hs : timeToSeconds startT = .ok s) (he : timeToSeconds endT = .ok e)
    (h1 : 0 < e - s) (h2 : e - s ≤ maxVideoDuration) :
    (ClipEvent.runEncode ∈ (createClip startT endT env).1 ↔
        streamCopySuccess env.copy = false) ∧
    (streamCopySuccess env.copy = true →
        (createClip startT endT env).1 = [ClipEvent.runCopy]) ∧
    (streamCopySuccess env.copy = false → env.copy.outExists = true →
        (createClip startT endT env).1 =
          [ClipEvent.runCopy, ClipEvent.deleteFailedOutput, ClipEvent.runEncode]) ∧
    (streamCopySuccess env.copy = false → env.copy.outExists = false →
        (createClip startT endT env).1 = [ClipEvent.runCopy, ClipEvent.runEncode]) := by
  have hfst : (createClip startT endT env).1 = clipEvents env := by
    unfold createClip
    simp only [hs, he]
    rw [if_neg (not_le.mpr h1), if_neg (not_lt.mpr h2)]
    split_ifs <;> rfl
  rw [hfst]
  refine ⟨clipEvents_runEncode_mem env, ?_, ?_, ?_⟩
  · intro hc
    simp [clipEvents, hc]
  · intro hc hex
    simp [clipEvents, hc, hex]
  · intro hc hex
    simp [clipEvents, hc, hex]

/-- Closed instance of C2: with a failing copy phase and no partial output,
the trace is copy then re-encode. -/
theorem createClip_twoPhase_witness :
    (createClip "0:10" "0:40" clipCopyFailEnv).1 =
      [ClipEvent.runCopy, ClipEvent.runEncode] :=
  (createClip_twoPhase "0:10" "0:40" clipCopyFailEnv 10 40 tsEval_0_10 tsEval_0_40
      (by norm_num) (by norm_num [maxVideoDuration])).2.2.2 (by decide) (by decide)

/-- C5 counterexample: a negative start time does not make `create_clip`
fail before invoking the media tool — with start -2:00 and end 0:30 the
duration is positive and below the maximum, so the tool is invoked and the
call succeeds; the negative-start invariant is only checked by the uncalled
`validate_time_range`. -/
theorem createClip_negStart_counterexample :
    ¬ (∀ (startT endT : String) (env : ClipEnv) (s e : ℚ),
        timeToSeconds startT = .ok s → timeToSeconds endT = .ok e → s < 0 →
        createClip startT endT env = ([], .error ClipErr.invalidTime)) := by
  intro hcl
  have h1 := hcl "-2:00" "0:30" clipOkEnv (-120) 30 tsEval_neg2_00 tsEval_0_30 (by norm_num)
  have h2 : createClip "-2:00" "0:30" clipOkEnv = ([ClipEvent.runCopy], .ok ()) := by
    unfold createClip
    simp only [tsEval_neg2_00, tsEval_0_30]
    rw [if_neg (by norm_num), if_neg (by norm_num [maxVideoDuration])]
    rw [if_neg (by decide), if_neg (by decide)]
    rfl
  rw [h2] at h1
  exact absurd h1 (by simp)

/-- C5 (amended): for successfully parsed time values, `create_clip` fails
with `InvalidTimeFormatException` before invoking the media tool exactly
for a non-positive duration or a duration above the configured maximum; a
negative start alone is not checked there and the tool is still invoked
(the negative-value check lives only in `validate_time_range`, which no
caller invokes); only the two error kinds of `ClipErr` can escape. -/
theorem createClip_rangeChecks (startT endT : String) (env : ClipEnv) (s e : ℚ)
    (hs : timeToSeconds startT = .ok s) (he : timeToSeconds endT = .ok e) :
    ((e - s ≤ 0 ∨ maxVideoDuration < e - s) →
        createClip startT endT env = ([], .error ClipErr.invalidTime)) ∧
    (0 < e - s → e - s ≤ maxVideoDuration →
        (createClip startT endT env).1.head? = some ClipEvent.runCopy) ∧
    (s < 0 → validateTimeRange startT endT none = .error ClipErr.invalidTime) := by
  refine ⟨?_, ?_, ?_⟩
  · intro hd
    unfold createClip
    simp only [hs, he]
    rcases hd with hd | hd
    · rw [if_pos hd]
    · have h0 : ¬ (e - s ≤ 0) := by
        have : (0 : ℚ) < maxVideoDuration := by norm_num [maxVideoDuration]
        linarith
      rw [if_neg h0, if_pos hd]
  · intro hd1 hd2
    unfold createClip
    simp only [hs, he]
    rw [if_neg (not_le.mpr hd1), if_neg (not_lt.mpr hd2)]
    have hev : (clipEvents env).head? = some ClipEvent.runCopy := by
      unfold clipEvents
      split_ifs <;> rfl
    split_ifs <;> exact hev
  · intro hneg
    unfold validateTimeRange
    simp only [hs, he]
    rw [if_pos (Or.inl hneg)]

/-- Closed instance of the C5 amended theorem: end before start is rejected
before any tool invocation. -/
theorem createClip_rangeChecks_witness :
    createClip "0:40" "0:10" clipOkEnv = ([], .error ClipErr.invalidTime) :=
  (createClip_rangeChecks "0:40" "0:10" clipOkEnv 40 10 tsEval_0_40 tsEval_0_10).1
    (Or.inl (by norm_num))

/-- C6 counterexample: a bare seconds string with no colon does not parse —
`_time_to_seconds` raises `InvalidTimeFormatException` for any component
count other than two or three (video_processing.py:187-188), so the SS form
is rejected. -/
theorem timeToSeconds_bareSeconds_counterexample :
    timeToSeconds "45" = .error (invalidTimeMsg "45") := by
  have h : "45".data.splitOn ':' = [['4', '5']] := by decide
  simp only [timeToSeconds, h]

/-- C6 (amended): `_time_to_seconds` accepts exactly the two forms MM:SS
and HH:MM:SS, each with optional fractional seconds on the final component,
returning minutes*60+seconds resp. hours*3600+minutes*60+seconds; it fails
with `InvalidTimeFormatException` on any other number of colon-separated
components — in particular on a bare seconds string with no colon — or on a
component rejected by `int`/`float`. -/
theorem timeToSeconds_forms :
    (∀ (s : String) (a b : List Char) (mi : ℤ) (q : ℚ),
        s.data.splitOn ':' = [a, b] → pyIntCore a = some mi → pyFloatCore b = some q →
        timeToSeconds s = .ok ((mi : ℚ) * 60 + q)) ∧
    (∀ (s : String) (a b c : List Char) (hi mi : ℤ) (q : ℚ),
        s.data.splitOn ':' = [a, b, c] → pyIntCore a = some hi → pyIntCore b = some mi →
        pyFloatCore c = some q →
        timeToSeconds s = .ok ((hi : ℚ) * 3600 + (mi : ℚ) * 60 + q)) ∧
    (∀ s : String, (s.data.splitOn ':').length ≠ 2 → (s.data.splitOn ':').length ≠ 3 →
        timeToSeconds s = .error (invalidTimeMsg s)) ∧
    (∀ (s : String) (a b : List Char), s.data.splitOn ':' = [a, b] →
        pyIntCore a = none ∨ pyFloatCore b = none →
        timeToSeconds s = .error (invalidTimeMsg s)) ∧
    (∀ (s : String) (a b c : List Char), s.data.splitOn ':' = [a, b, c] →
        pyIntCore a = none ∨ pyIntCore b = none ∨ pyFloatCore c = none →
        timeToSeconds s = .error (invalidTimeMsg s)) := by
  refine ⟨?_, ?_, ?_, ?_, ?_⟩
  · intro s a b mi q h ha hb
    simp only [timeToSeconds, h, ha, hb]
  · intro s a b c hi mi q h ha hb hc
    simp only [timeToSeconds, h, ha, hb, hc]
  · intro s h2 h3
    unfold timeToSeconds
    rcases hl : s.data.splitOn ':' with _ | ⟨a, _ | ⟨b, _ | ⟨c, _ | ⟨d, tl⟩⟩⟩⟩
    · rfl
    · rfl
    · exact absurd (by simp [hl]) h2
    · exact absurd (by simp [hl]) h3
    · rfl
  · intro s a b h hab
    rcases hab with ha | hb
    · rcases hob : pyFloatCore b with _ | q <;> simp only [timeToSeconds, h, ha, hob]
    · rcases hoa : pyIntCore a with _ | mi <;> simp only [timeToSeconds, h, hb, hoa]
  · intro s a b c h habc
    rcases habc with ha | hb | hc
    · rcases hob : pyIntCore b with _ | mi <;>
        rcases hoc : pyFloatCore c with _ | q <;>
          simp only [timeToSeconds, h, ha, hob, hoc]
    · rcases hoa : pyIntCore a with _ | hi <;>
        rcases hoc : pyFloatCore c with _ | q <;>
          simp only [timeToSeconds, h, hb, hoa, hoc]
    · rcases hoa : pyIntCore a with _ | hi <;>
        rcases hob : pyIntCore b with _ | mi <;>
          simp only [timeToSeconds, h, hc, hoa, hob]

/-- Closed instance of the C6 amended theorem: 2:30 parses to 150 seconds. -/
theorem timeToSeconds_forms_witness :
    timeToSeconds "2:30" = .ok (((2 : ℤ) : ℚ) * 60 + 30) :=
  timeToSeconds_forms.1 "2:30" ['2'] ['3', '0'] 2 30 (by decide) (by decide) (by decide)

/-- A list of exactly n class characters, followed by anything, is captured
whole by the class matcher. -/
theorem takeClass_all (l : List Char) (r : List Char) (n : ℕ) (hn : l.length = n)
    (hall : l.all idClass = true) : takeClass n (l ++ r) = some l := by
  induction l generalizing n with
  | nil => subst hn; rfl
  | cons c cs ih =>
    subst hn
    simp only [List.all_cons, Bool.and_eq_true] at hall
    show takeClass (cs.length + 1) (c :: (cs ++ r)) = some (c :: cs)
    simp only [takeClass, hall.1, if_true]
    rw [ih cs.length rfl hall.2]
    rfl

/-- The class matcher fails when a non-class character appears among the
first eleven positions. -/
theorem takeClass_none_of_bad (l1 : List Char) (c : Char) (l2 : List Char)
    (hbad : idClass c = false) (hlt : l1.length < 11) :
    takeClass 11 (l1 ++ c :: l2) = none := by
  have main : ∀ (n : ℕ) (l1 : List Char), l1.length < n →
      takeClass n (l1 ++ c :: l2) = none := by
    intro n l1
    induction l1 generalizing n with
    | nil =>
      intro hn
      match n, hn with
      | m + 1, _ => simp [takeClass, hbad]
    | cons d ds ih =>
      intro hn
      match n, hn with
      | m + 1, hn =>
        have step : takeClass (m + 1) ((d :: ds) ++ c :: l2) =
            if idClass d then (takeClass m (ds ++ c :: l2)).map (d :: ·) else none := rfl
        rw [step]
        by_cases hd : idClass d = true
        · rw [if_pos hd, ih m (by simpa using hn)]
          rfl
        · rw [if_neg (by simpa using hd)]
  exact main 11 l1 hlt

/-- Every successful class capture has the requested length and consists of
class characters. -/
theorem takeClass_sound (n : ℕ) : ∀ (l g : List Char), takeClass n l = some g →
    g.length = n ∧ g.all idClass = true := by
  induction n with
  | zero =>
    intro l g h
    have h' : some ([] : List Char) = some g := h
    injection h' with h'
    subst h'
    simp
  | succ m ih =>
    intro l g h
    cases l with
    | nil => exact absurd h (by simp [takeClass])
    | cons c cs =>
      have step : takeClass (m + 1) (c :: cs) =
          if idClass c then (takeClass m cs).map (c :: ·) else none := rfl
      rw [step] at h
      by_cases hc : idClass c = true
      · rw [if_pos hc] at h
        rcases htc : takeClass m cs with _ | g' <;> rw [htc] at h
        · simp at h
        · simp only [Option.map_some'] at h
          injection h with h
          subst h
          obtain ⟨hl, ha⟩ := ih cs g' htc
          exact ⟨by simp [hl], by simp [ha, hc]⟩
      · rw [if_neg hc] at h
        simp at h

/-- Scanning step: a position holding neither v nor a slash cannot start a
match of pattern 1. -/
theorem searchP1_skip {c : Char} {cs : List Char} (h1 : (c == 'v') = false)
    (h2 : (c == '/') = false) : searchP1 (c :: cs) = searchP1 cs := by
  conv_lhs => unfold searchP1
  simp [h1, h2]

/-- Scanning step: a slash not followed by eleven class characters does not
match pattern 1. -/
theorem searchP1_slash {cs : List Char} (h : takeClass 11 cs = none) :
    searchP1 ('/' :: cs) = searchP1 cs := by
  conv_lhs => unfold searchP1
  simp [h]

/-- Scanning step: a slash followed by eleven class characters matches
pattern 1 and yields the capture. -/
theorem searchP1_slash_hit {cs g : List Char} (h : takeClass 11 cs = some g) :
    searchP1 ('/' :: cs) = some g := by
  conv_lhs => unfold searchP1
  simp [h]

/-- Scanning step: v= followed by eleven class characters matches pattern 1
and yields the capture. -/
theorem searchP1_vEq_hit {after g : List Char} (h : takeClass 11 after = some g) :
    searchP1 ('v' :: '=' :: after) = some g := by
  conv_lhs => unfold searchP1
  simp [h]
/-- Leftmost scan of pattern 1 over the watch URL form: the first
position where an alternative is followed by eleven class characters is
the one capturing the token. -/
theorem scanWatch (td : List Char) (h11 : td.length = 11)
    (hall : td.all idClass = true) :
    searchP1 ("https://www.youtube.com/watch?v=".data ++ td) = some td := by
  have ht : takeClass 11 td = some td := by
    have h := takeClass_all td [] 11 h11 hall
    simpa using h
  have hd : "https://www.youtube.com/watch?v=".data =
      ['h','t','t','p','s',':','/','/','w','w','w','.','y','o','u','t','u','b','e','.','c','o','m','/','w','a','t','c','h','?','v','='] := by decide
  rw [hd]
  simp only [List.cons_append, List.nil_append]
  rw [searchP1_skip (by decide) (by decide)]
  rw [searchP1_skip (by decide) (by decide)]
  rw [searchP1_skip (by decide) (by decide)]
  rw [searchP1_skip (by decide) (by decide)]
  rw [searchP1_skip (by decide) (by decide)]
  rw [searchP1_skip (by decide) (by decide)]
  rw [searchP1_slash (show takeClass 11 ('/' :: 'w' :: 'w' :: 'w' :: '.' :: 'y' :: 'o' :: 'u' :: 't' :: 'u' :: 'b' :: 'e' :: '.' :: 'c' :: 'o' :: 'm' :: '/' :: 'w' :: 'a' :: 't' :: 'c' :: 'h' :: '?' :: 'v' :: '=' ::td) = none from
    takeClass_none_of_bad [] '/' _ (by decide) (by decide))]
  rw [searchP1_slash (show takeClass 11 ('w' :: 'w' :: 'w' :: '.' :: 'y' :: 'o' :: 'u' :: 't' :: 'u' :: 'b' :: 'e' :: '.' :: 'c' :: 'o' :: 'm' :: '/' :: 'w' :: 'a' :: 't' :: 'c' :: 'h' :: '?' :: 'v' :: '=' ::td) = none from
    takeClass_none_of_bad ['w','w','w'] '.' _ (by decide) (by decide))]
  rw [searchP1_skip (by decide) (by decide)]
  rw [searchP1_skip (by decide) (by decide)]
  rw [searchP1_skip (by decide) (by decide)]
  rw [searchP1_skip (by decide) (by decide)]
  rw [searchP1_skip (by decide) (by decide)]
  rw [searchP1_skip (by decide) (by decide)]
  rw [searchP1_skip (by decide) (by decide)]
  rw [searchP1_skip (by decide) (by decide)]
  rw [searchP1_skip (by decide) (by decide)]
  rw [searchP1_skip (by decide) (by decide)]
  rw [searchP1_skip (by decide) (by decide)]
  rw [searchP1_skip (by decide) (by decide)]
  rw [searchP1_skip (by decide) (by decide)]
  rw [searchP1_skip (by decide) (by decide)]
  rw [searchP1_skip (by decide) (by decide)]
  rw [searchP1_slash (show takeClass 11 ('w' :: 'a' :: 't' :: 'c' :: 'h' :: '?' :: 'v' :: '=' ::td) = none from
    takeClass_none_of_bad ['w','a','t','c','h'] '?' _ (by decide) (by decide))]
  rw [searchP1_skip (by decide) (by decide)]
  rw [searchP1_skip (by decide) (by decide)]
  rw [searchP1_skip (by decide) (by decide)]
  rw [searchP1_skip (by decide) (by decide)]
  rw [searchP1_skip (by decide) (by decide)]
  rw [searchP1_skip (by decide) (by decide)]
  rw [searchP1_vEq_hit ht]

/-- Leftmost scan of pattern 1 over the embed URL form: the first
position where an alternative is followed by eleven class characters is
the one capturing the token. -/
theorem scanEmbed (td : List Char) (h11 : td.length = 11)
    (hall : td.all idClass = true) :
    searchP1 ("https://www.youtube.com/embed/".data ++ td) = some td := by
  have ht : takeClass 11 td = some td := by
    have h := takeClass_all td [] 11 h11 hall
    simpa using h
  have hd : "https://www.youtube.com/embed/".data =
      ['h','t','t','p','s',':','/','/','w','w','w','.','y','o','u','t','u','b','e','.','c','o','m','/','e','m','b','e','d','/'] := by decide
  rw [hd]
  simp only [List.cons_append, List.nil_append]
  rw [searchP1_skip (by decide) (by decide)]
  rw [searchP1_skip (by decide) (by decide)]
  rw [searchP1_skip (by decide) (by decide)]
  rw [searchP1_skip (by decide) (by decide)]
  rw [searchP1_skip (by decide) (by decide)]
  rw [searchP1_skip (by decide) (by decide)]
  rw [searchP1_slash (show takeClass 11 ('/' :: 'w' :: 'w' :: 'w' :: '.' :: 'y' :: 'o' :: 'u' :: 't' :: 'u' :: 'b' :: 'e' :: '.' :: 'c' :: 'o' :: 'm' :: '/' :: 'e' :: 'm' :: 'b' :: 'e' :: 'd' :: '/' ::td) = none from
    takeClass_none_of_bad [] '/' _ (by decide) (by decide))]
  rw [searchP1_slash (show takeClass 11 ('w' :: 'w' :: 'w' :: '.' :: 'y' :: 'o' :: 'u' :: 't' :: 'u' :: 'b' :: 'e' :: '.' :: 'c' :: 'o' :: 'm' :: '/' :: 'e' :: 'm' :: 'b' :: 'e' :: 'd' :: '/' ::td) = none from
    takeClass_none_of_bad ['w','w','w'] '.' _ (by decide) (by decide))]
  rw [searchP1_skip (by decide) (by decide)]
  rw [searchP1_skip (by decide) (by decide)]
  rw [searchP1_skip (by decide) (by decide)]
  rw [searchP1_skip (by decide) (by decide)]
  rw [searchP1_skip (by decide) (by decide)]
  rw [searchP1_skip (by decide) (by decide)]
  rw [searchP1_skip (by decide) (by decide)]
  rw [searchP1_skip (by decide) (by decide)]
  rw [searchP1_skip (by decide) (by decide)]
  rw [searchP1_skip (by decide) (by decide)]
  rw [searchP1_skip (by decide) (by decide)]
  rw [searchP1_skip (by decide) (by decide)]
  rw [searchP1_skip (by decide) (by decide)]
  rw [searchP1_skip (by decide) (by decide)]
  rw [searchP1_skip (by decide) (by decide)]
  rw [searchP1_slash (show takeClass 11 ('e' :: 'm' :: 'b' :: 'e' :: 'd' :: '/' ::td) = none from
    takeClass_none_of_bad ['e','m','b','e','d'] '/' _ (by decide) (by decide))]
  rw [searchP1_skip (by decide) (by decide)]
  rw [searchP1_skip (by decide) (by decide)]
  rw [searchP1_skip (by decide) (by decide)]
  rw [searchP1_skip (by decide) (by decide)]
  rw [searchP1_skip (by decide) (by decide)]
  rw [searchP1_slash_hit ht]

/-- Leftmost scan of pattern 1 over the youtu URL form: the first
position where an alternative is followed by eleven class characters is
the one capturing the token. -/
theorem scanYoutu (td : List Char) (h11 : td.length = 11)
    (hall : td.all idClass = true) :
    searchP1 ("https://youtu.be/".data ++ td) = some td := by
  have ht : takeClass 11 td = some td := by
    have h := takeClass_all td [] 11 h11 hall
    simpa using h
  have hd : "https://youtu.be/".data =
      ['h','t','t','p','s',':','/','/','y','o','u','t','u','.','b','e','/'] := by decide
  rw [hd]
  simp only [List.cons_append, List.nil_append]
  rw [searchP1_skip (by decide) (by decide)]
  rw [searchP1_skip (by decide) (by decide)]
  rw [searchP1_skip (by decide) (by decide)]
  rw [searchP1_skip (by decide) (by decide)]
  rw [searchP1_skip (by decide) (by decide)]
  rw [searchP1_skip (by decide) (by decide)]
  rw [searchP1_slash (show takeClass 11 ('/' :: 'y' :: 'o' :: 'u' :: 't' :: 'u' :: '.' :: 'b' :: 'e' :: '/' ::td) = none from
    takeClass_none_of_bad [] '/' _ (by decide) (by decide))]
  rw [searchP1_slash (show takeClass 11 ('y' :: 'o' :: 'u' :: 't' :: 'u' :: '.' :: 'b' :: 'e' :: '/' ::td) = none from
    takeClass_none_of_bad ['y','o','u','t','u'] '.' _ (by decide) (by decide))]
  rw [searchP1_skip (by decide) (by decide)]
  rw [searchP1_skip (by decide) (by decide)]
  rw [searchP1_skip (by decide) (by decide)]
  rw [searchP1_skip (by decide) (by decide)]
  rw [searchP1_skip (by decide) (by decide)]
  rw [searchP1_skip (by decide) (by decide)]
  rw [searchP1_skip (by decide) (by decide)]
  rw [searchP1_skip (by decide) (by decide)]
  rw [searchP1_slash_hit ht]


/-- Scanning step: a lone final character never matches pattern 1. -/
theorem searchP1_single (c : Char) : searchP1 [c] = none := by
  conv_lhs => unfold searchP1
  split_ifs <;> simp [searchP1, takeClass]

/-- Scanning step: v not followed by an equals sign does not start a match
of pattern 1. -/
theorem searchP1_v_skip {c2 : Char} {after : List Char} (h : (c2 == '=') = false) :
    searchP1 ('v' :: c2 :: after) = searchP1 (c2 :: after) := by
  conv_lhs => unfold searchP1
  simp [h]

/-- Scanning step: v= not followed by eleven class characters does not
match pattern 1 at this position. -/
theorem searchP1_vEq_miss {after : List Char} (h : takeClass 11 after = none) :
    searchP1 ('v' :: '=' :: after) = searchP1 ('=' :: after) := by
  conv_lhs => unfold searchP1
  simp [h]

/-- Every successful pattern-1 capture has exactly eleven class
characters. -/
theorem searchP1_sound (l : List Char) : ∀ g, searchP1 l = some g →
    g.length = 11 ∧ g.all idClass = true := by
  induction l with
  | nil =>
    intro g h
    exact absurd h (by simp [searchP1])
  | cons c rest ih =>
    intro g h
    cases rest with
    | nil =>
      rw [searchP1_single c] at h
      exact absurd h (by simp)
    | cons c2 after =>
      by_cases hv : (c == 'v') = true
      · have hc : c = 'v' := by simpa using hv
        subst hc
        by_cases heq : (c2 == '=') = true
        · have hc2 : c2 = '=' := by simpa using heq
          subst hc2
          rcases htc : takeClass 11 after with _ | g'
          · rw [searchP1_vEq_miss htc] at h
            exact ih g h
          · rw [searchP1_vEq_hit htc] at h
            injection h with h
            subst h
            exact takeClass_sound 11 after g' htc
        · rw [searchP1_v_skip (by simpa using heq)] at h
          exact ih g h
      · by_cases hs : (c == '/') = true
        · have hc : c = '/' := by simpa using hs
          subst hc
          rcases htc : takeClass 11 (c2 :: after) with _ | g'
          · rw [searchP1_slash htc] at h
            exact ih g h
          · rw [searchP1_slash_hit htc] at h
            injection h with h
            subst h
            exact takeClass_sound 11 _ g' htc
        · rw [searchP1_skip (by simpa using hv) (by simpa using hs)] at h
          exact ih g h

/-- Scanning step for the literal patterns: no literal prefix here. -/
theorem searchLit_step_skip {lit : List Char} {c : Char} {rest : List Char}
    (h : lit.isPrefixOf (c :: rest) = false) :
    searchLit lit (c :: rest) = searchLit lit rest := by
  conv_lhs => unfold searchLit
  simp [h]

/-- Scanning step for the literal patterns: literal prefix present but not
followed by eleven class characters. -/
theorem searchLit_step_miss {lit : List Char} {c : Char} {rest : List Char}
    (hp : lit.isPrefixOf (c :: rest) = true)
    (htc : takeClass 11 ((c :: rest).drop lit.length) = none) :
    searchLit lit (c :: rest) = searchLit lit rest := by
  conv_lhs => unfold searchLit
  simp [hp, htc]

/-- Scanning step for the literal patterns: literal prefix followed by
eleven class characters yields the capture. -/
theorem searchLit_step_hit {lit : List Char} {c : Char} {rest g : List Char}
    (hp : lit.isPrefixOf (c :: rest) = true)
    (htc : takeClass 11 ((c :: rest).drop lit.length) = some g) :
    searchLit lit (c :: rest) = some g := by
  conv_lhs => unfold searchLit
  simp [hp, htc]

/-- Every successful literal-pattern capture has exactly eleven class
characters. -/
theorem searchLit_sound (lit : List Char) (l : List Char) : ∀ g,
    searchLit lit l = some g → g.length = 11 ∧ g.all idClass = true := by
  induction l with
  | nil =>
    intro g h
    exact absurd h (by simp [searchLit])
  | cons c rest ih =>
    intro g h
    by_cases hp : lit.isPrefixOf (c :: rest) = true
    · rcases htc : takeClass 11 ((c :: rest).drop lit.length) with _ | g'
      · rw [searchLit_step_miss hp htc] at h
        exact ih g h
      · rw [searchLit_step_hit hp htc] at h
        injection h with h
        subst h
        exact takeClass_sound 11 _ g' htc
    · rw [searchLit_step_skip (by simp only [Bool.not_eq_true] at hp; exact hp)] at h
      exact ih g h

/-- Rebuilding a string from its characters is the identity. -/
theorem stringMk_data (t : String) : String.mk t.data = t := by
  cases t
  rfl

/-- C8: all three canonical URL shapes carrying the same 11-character token
yield that token (each is in fact already matched by the first pattern, at
the position of the separator preceding the token), and a URL on which none
of the four patterns matches raises `InvalidURLException`.  The extractor
is a pure function of the URL. -/
theorem extractVideoId_urlForms :
    (∀ t : String, t.length = 11 → t.data.all idClass = true →
        extractVideoId ("https://www.youtube.com/watch?v=" ++ t) = .ok (some t) ∧
        extractVideoId ("https://www.youtube.com/embed/" ++ t) = .ok (some t) ∧
        extractVideoId ("https://youtu.be/" ++ t) = .ok (some t)) ∧
    (∀ url : String, searchP1 url.data = none → searchLit embedLit url.data = none →
        searchLit vEqLit url.data = none → searchLit youtuBeLit url.data = none →
        extractVideoId url = .error (invalidURLMsg url)) := by
  constructor
  · intro t h11 hall
    refine ⟨?_, ?_, ?_⟩
    · have hscan := scanWatch t.data h11 hall
      simp only [extractVideoId, String.data_append, hscan, stringMk_data]
    · have hscan := scanEmbed t.data h11 hall
      simp only [extractVideoId, String.data_append, hscan, stringMk_data]
    · have hscan := scanYoutu t.data h11 hall
      simp only [extractVideoId, String.data_append, hscan, stringMk_data]
  · intro url h1 h2 h3 h4
    simp only [extractVideoId, h1, h2, h3, h4]

/-- Closed instance of C8: the three URL forms for one concrete token. -/
theorem extractVideoId_urlForms_witness :
    extractVideoId "https://www.youtube.com/watch?v=dQw4w9WgXcQ" = .ok (some "dQw4w9WgXcQ") ∧
    extractVideoId "https://www.youtube.com/embed/dQw4w9WgXcQ" = .ok (some "dQw4w9WgXcQ") ∧
    extractVideoId "https://youtu.be/dQw4w9WgXcQ" = .ok (some "dQw4w9WgXcQ") :=
  extractVideoId_urlForms.1 "dQw4w9WgXcQ" (by decide) (by decide)

/-- C10: `extract_video_id` never returns `None` despite its
`Optional[str]` annotation — absence is always signalled by
`InvalidURLException` — and every returned identifier consists of exactly
eleven characters of the class `[0-9A-Za-z_-]`. -/
theorem extractVideoId_shape :
    (∀ url : String, extractVideoId url ≠ .ok none) ∧
    (∀ (url t : String), extractVideoId url = .ok (some t) →
        t.length = 11 ∧ t.data.all idClass = true) := by
  have main : ∀ url : String, extractVideoId url = .error (invalidURLMsg url) ∨
      ∃ g, extractVideoId url = .ok (some (String.mk g)) ∧
        g.length = 11 ∧ g.all idClass = true := by
    intro url
    unfold extractVideoId
    rcases h1 : searchP1 url.data with _ | g
    · rcases h2 : searchLit embedLit url.data with _ | g
      · rcases h3 : searchLit vEqLit url.data with _ | g
        · rcases h4 : searchLit youtuBeLit url.data with _ | g
          · exact Or.inl rfl
          · exact Or.inr ⟨g, rfl, searchLit_sound _ _ g h4⟩
        · exact Or.inr ⟨g, rfl, searchLit_sound _ _ g h3⟩
      · exact Or.inr ⟨g, rfl, searchLit_sound _ _ g h2⟩
    · exact Or.inr ⟨g, rfl, searchP1_sound _ g h1⟩
  constructor
  · intro url h
    rcases main url with hm | ⟨g, hm, _⟩
    · rw [hm] at h
      exact absurd h (by simp)
    · rw [hm] at h
      exact absurd h (by simp)
  · intro url t h
    rcases main url with hm | ⟨g, hm, hg⟩
    · rw [hm] at h
      exact absurd h (by simp)
    · rw [hm] at h
      have ht : String.mk g = t := by
        injection h with h
        injection h
      subst ht
      exact hg

/-- Closed instance of C10 at a concrete URL. -/
theorem extractVideoId_shape_witness :
    ("dQw4w9WgXcQ" : String).length = 11 ∧
      ("dQw4w9WgXcQ" : String).data.all idClass = true :=
  extractVideoId_shape.2 "https://youtu.be/dQw4w9WgXcQ" "dQw4w9WgXcQ"
    extractVideoId_urlForms_witness.2.2

/-- A decimal digit character is none of the special characters of the
time-string grammar and is not whitespace. -/
theorem isDigit_facts {c : Char} (h : c.isDigit = true) :
    c ≠ '+' ∧ c ≠ '-' ∧ ¬((c == ':') = true) ∧ c ≠ '.' ∧ isPySpace c = false := by
  refine ⟨?_, ?_, ?_, ?_, ?_⟩
  · intro he
    subst he
    exact absurd h (by decide)
  · intro he
    subst he
    exact absurd h (by decide)
  · intro he
    have he' : c = ':' := by simpa using he
    subst he'
    exact absurd h (by decide)
  · intro he
    subst he
    exact absurd h (by decide)
  · cases hsp : isPySpace c
    · rfl
    · exfalso
      revert hsp
      unfold isPySpace
      simp only [Bool.or_eq_true, beq_iff_eq]
      rintro (((((rfl | rfl) | rfl) | rfl) | rfl) | rfl) <;> exact absurd h (by decide)

/-- A list whose characters all fail the predicate is untouched by
dropWhile. -/
theorem dropWhile_eq_self_of {p : Char → Bool} {l : List Char}
    (h : ∀ c ∈ l, p c = false) : l.dropWhile p = l := by
  cases l with
  | nil => rfl
  | cons c cs =>
    rw [List.dropWhile_cons, if_neg (by simp [h c (List.mem_cons_self c cs)])]

/-- Stripping is the identity on whitespace-free lists. -/
theorem pyStrip_eq_self {l : List Char} (h : ∀ c ∈ l, isPySpace c = false) :
    pyStrip l = l := by
  unfold pyStrip
  rw [dropWhile_eq_self_of h,
    dropWhile_eq_self_of (fun c hc => h c (List.mem_reverse.mp hc)),
    List.reverse_reverse]

/-- takeWhile takes everything when every character satisfies the
predicate. -/
theorem takeWhile_all_of {p : Char → Bool} {l : List Char}
    (h : ∀ c ∈ l, p c = true) : l.takeWhile p = l := by
  induction l with
  | nil => rfl
  | cons c cs ih =>
    rw [List.takeWhile_cons, if_pos (h c (List.mem_cons_self c cs))]
    rw [ih (fun d hd => h d (List.mem_cons_of_mem c hd))]

/-- takeWhile stops exactly at the first failing character. -/
theorem takeWhile_append_stop {p : Char → Bool} {l1 : List Char} {x : Char}
    {l2 : List Char} (h1 : ∀ c ∈ l1, p c = true) (hx : p x = false) :
    (l1 ++ x :: l2).takeWhile p = l1 := by
  induction l1 with
  | nil => simp [List.takeWhile_cons, hx]
  | cons c cs ih =>
    rw [List.cons_append, List.takeWhile_cons, if_pos (h1 c (List.mem_cons_self c cs))]
    rw [ih (fun d hd => h1 d (List.mem_cons_of_mem c hd))]

/-- Folding the decimal accumulator from an arbitrary start. -/
theorem digitsVal_foldl_init (l : List Char) (a : ℕ) :
    l.foldl (fun acc c => 10 * acc + (c.toNat - 48)) a =
      a * 10 ^ l.length + digitsVal l := by
  induction l generalizing a with
  | nil => simp [digitsVal]
  | cons c cs ih =>
    simp only [List.foldl_cons, List.length_cons]
    rw [ih (10 * a + (c.toNat - 48))]
    rw [show digitsVal (c :: cs) =
        cs.foldl (fun acc d => 10 * acc + (d.toNat - 48)) (10 * 0 + (c.toNat - 48)) from rfl]
    rw [ih (10 * 0 + (c.toNat - 48))]
    ring

/-- Decimal value of a single leading digit plus the rest. -/
theorem digitsVal_cons (c : Char) (l : List Char) :
    digitsVal (c :: l) = (c.toNat - 48) * 10 ^ l.length + digitsVal l := by
  rw [show digitsVal (c :: l) =
      l.foldl (fun acc d => 10 * acc + (d.toNat - 48)) (10 * 0 + (c.toNat - 48)) from rfl]
  rw [digitsVal_foldl_init l (10 * 0 + (c.toNat - 48))]
  ring

/-- Decimal value of a concatenation. -/
theorem digitsVal_append (l1 l2 : List Char) :
    digitsVal (l1 ++ l2) = digitsVal l1 * 10 ^ l2.length + digitsVal l2 := by
  unfold digitsVal
  rw [List.foldl_append]
  exact digitsVal_foldl_init l2 _

/-- Leading zeros do not change the decimal value. -/
theorem digitsVal_replicate_zero (k : ℕ) (l : List Char) :
    digitsVal (List.replicate k '0' ++ l) = digitsVal l := by
  rw [digitsVal_append]
  have hz : digitsVal (List.replicate k '0') = 0 := by
    induction k with
    | zero => rfl
    | succ m ih =>
      rw [List.replicate_succ, digitsVal_cons, ih]
      simp
  rw [hz]
  simp

/-- Decimal value after zero padding. -/
theorem digitsVal_padZeros (l : List Char) (w : ℕ) :
    digitsVal (padZeros l w) = digitsVal l := by
  unfold padZeros
  exact digitsVal_replicate_zero _ l

/-- A digit character rendered from a value below ten is a decimal digit. -/
theorem digitChar_isDigit {d : ℕ} (h : d < 10) : (digitChar d).isDigit = true := by
  interval_cases d <;> decide

/-- Round trip of a single digit character. -/
theorem digitChar_toNat {d : ℕ} (h : d < 10) : (digitChar d).toNat - 48 = d := by
  interval_cases d <;> decide

/-- Helper: the digit renderer at fuel zero or value zero is empty. -/
theorem natDigitsAux_zero (fuel : ℕ) : natDigitsAux fuel 0 = [] := by
  cases fuel <;> simp [natDigitsAux]

/-- The fuelled digit renderer is correct when given enough fuel. -/
theorem natDigitsAux_spec : ∀ (fuel n : ℕ), n ≠ 0 → n ≤ fuel →
    (natDigitsAux fuel n).all Char.isDigit = true ∧
      digitsVal (natDigitsAux fuel n) = n := by
  intro fuel
  induction fuel with
  | zero =>
    intro n h0 hle
    omega
  | succ m ih =>
    intro n h0 hle
    rw [show natDigitsAux (m + 1) n =
        if n = 0 then [] else natDigitsAux m (n / 10) ++ [digitChar (n % 10)] from rfl]
    rw [if_neg h0]
    have hmod : n % 10 < 10 := Nat.mod_lt n (by norm_num)
    have hsingle : digitsVal [digitChar (n % 10)] = n % 10 := by
      rw [digitsVal_cons, show digitsVal ([] : List Char) = 0 from rfl,
        digitChar_toNat hmod]
      simp
    by_cases h10 : n / 10 = 0
    · rw [h10, natDigitsAux_zero]
      constructor
      · simp [digitChar_isDigit hmod]
      · rw [List.nil_append, hsingle]
        omega
    · have hlt : n / 10 < n := Nat.div_lt_self (Nat.pos_of_ne_zero h0) (by norm_num)
      obtain ⟨ha, hv⟩ := ih (n / 10) h10 (by omega)
      constructor
      · simp only [List.all_append, ha, Bool.true_and, List.all_cons, List.all_nil,
          Bool.and_true]
        exact digitChar_isDigit hmod
      · rw [digitsVal_append, hv, hsingle]
        simp only [List.length_cons, List.length_nil, pow_one, Nat.zero_add, pow_zero]
        omega

/-- The decimal renderer produces digit characters whose value is the
rendered number. -/
theorem natDigits_spec (n : ℕ) :
    (natDigits n).all Char.isDigit = true ∧ digitsVal (natDigits n) = n := by
  unfold natDigits
  by_cases h : n = 0
  · subst h
    exact ⟨by decide, by decide⟩
  · rw [if_neg h]
    exact natDigitsAux_spec n n h le_rfl

/-- The decimal renderer never produces an empty list. -/
theorem natDigits_ne_nil (n : ℕ) : natDigits n ≠ [] := by
  unfold natDigits
  by_cases h : n = 0
  · subst h
    simp
  · rw [if_neg h]
    cases hn : n with
    | zero => exact absurd hn h
    | succ m =>
      rw [show natDigitsAux (m + 1) (m + 1) =
          if m + 1 = 0 then [] else
            natDigitsAux m ((m + 1) / 10) ++ [digitChar ((m + 1) % 10)] from rfl]
      simp

/-- Reduction of Python int on a whitespace-free cons list. -/
theorem pyIntCore_cons_eq (c : Char) (ds : List Char)
    (hsp : ∀ x ∈ c :: ds, isPySpace x = false) :
    pyIntCore (c :: ds) =
      if c = '+' then
        (if ds ≠ [] ∧ ds.all Char.isDigit then some ((digitsVal ds : ℤ)) else none)
      else if c = '-' then
        (if ds ≠ [] ∧ ds.all Char.isDigit then some (-(digitsVal ds : ℤ)) else none)
      else if (c :: ds).all Char.isDigit then some ((digitsVal (c :: ds) : ℤ))
      else none := by
  unfold pyIntCore
  rw [pyStrip_eq_self hsp]

/-- Parsing a nonempty all-digit list with Python int. -/
theorem pyIntCore_digits {l : List Char} (hne : l ≠ []) (hd : l.all Char.isDigit = true) :
    pyIntCore l = some ((digitsVal l : ℤ)) := by
  have hmem : ∀ c ∈ l, c.isDigit = true := by
    intro c hc
    exact (List.all_eq_true.mp hd) c hc
  cases l with
  | nil => exact absurd rfl hne
  | cons c cs =>
    have hcd := hmem c (List.mem_cons_self c cs)
    rw [pyIntCore_cons_eq c cs (fun x hx => (isDigit_facts (hmem x hx)).2.2.2.2)]
    rw [if_neg (isDigit_facts hcd).1, if_neg (isDigit_facts hcd).2.1, if_pos hd]

/-- Parsing a minus sign followed by a nonempty all-digit list with Python
int. -/
theorem pyIntCore_neg_digits {l : List Char} (hne : l ≠ [])
    (hd : l.all Char.isDigit = true) :
    pyIntCore ('-' :: l) = some (-(digitsVal l : ℤ)) := by
  have hmem : ∀ c ∈ l, c.isDigit = true := by
    intro c hc
    exact (List.all_eq_true.mp hd) c hc
  have hsp : ∀ c ∈ '-' :: l, isPySpace c = false := by
    intro c hc
    rcases List.mem_cons.mp hc with rfl | hc
    · decide
    · exact (isDigit_facts (hmem c hc)).2.2.2.2
  rw [pyIntCore_cons_eq '-' l hsp]
  rw [if_neg (by decide : ¬('-' : Char) = '+'), if_pos rfl, if_pos ⟨hne, hd⟩]

/-- The zero-padded two-width integer format parses back with Python int. -/
theorem pyIntCore_fmtInt2 (z : ℤ) : pyIntCore (fmtInt2 z) = some z := by
  obtain ⟨ha, hv⟩ := natDigits_spec z.natAbs
  have hne := natDigits_ne_nil z.natAbs
  unfold fmtInt2
  by_cases hz : z < 0
  · rw [if_pos hz]
    have hlen : 1 - (natDigits z.natAbs).length = 0 := by
      have : 0 < (natDigits z.natAbs).length := List.length_pos.mpr hne
      omega
    rw [show padZeros (natDigits z.natAbs) 1 =
        List.replicate (1 - (natDigits z.natAbs).length) '0' ++ natDigits z.natAbs from rfl]
    rw [hlen, List.replicate_zero, List.nil_append]
    rw [pyIntCore_neg_digits hne ha, hv]
    congr 1
    omega
  · rw [if_neg hz]
    have hpne : padZeros (natDigits z.natAbs) 2 ≠ [] := by
      unfold padZeros
      simp [hne]
    have hpd : (padZeros (natDigits z.natAbs) 2).all Char.isDigit = true := by
      unfold padZeros
      rw [List.all_append]
      simp only [ha, Bool.and_true]
      rw [List.all_eq_true]
      intro c hc
      rw [List.eq_of_mem_replicate hc]
      decide
    rw [pyIntCore_digits hpne hpd, digitsVal_padZeros, hv]
    congr 1
    omega

/-- Parsing digits, a dot, and more digits as a float mantissa. -/
theorem parseMantissa_digits_dot {ip fp : List Char} (hip : ip ≠ [])
    (hipd : ∀ c ∈ ip, c.isDigit = true) (hfpd : fp.all Char.isDigit = true) :
    parseMantissa (ip ++ '.' :: fp) =
      some ((digitsVal ip : ℚ) + (digitsVal fp : ℚ) / (10 : ℚ) ^ fp.length) := by
  have htw : (ip ++ '.' :: fp).takeWhile Char.isDigit = ip :=
    takeWhile_append_stop hipd (by decide)
  unfold parseMantissa
  rw [htw, List.drop_left]
  dsimp only
  rw [if_pos ⟨rfl, hfpd, Or.inl hip⟩]

/-- A digits-dot-digits list has no exponent part, so the float body is
just its mantissa. -/
theorem pyFloatBody_digits_dot {ip fp : List Char}
    (hipd : ∀ c ∈ ip, c.isDigit = true) (hfpd : fp.all Char.isDigit = true) :
    pyFloatBody (ip ++ '.' :: fp) = parseMantissa (ip ++ '.' :: fp) := by
  have hall : ∀ c ∈ ip ++ '.' :: fp, (c.isDigit || c == '.') = true := by
    intro c hc
    rcases List.mem_append.mp hc with hc | hc
    · simp [hipd c hc]
    · rcases List.mem_cons.mp hc with rfl | hc
      · decide
      · simp [(List.all_eq_true.mp hfpd) c hc]
  have htw : (ip ++ '.' :: fp).takeWhile (fun c => c.isDigit || c == '.') =
      ip ++ '.' :: fp := takeWhile_all_of hall
  unfold pyFloatBody
  rw [htw, List.drop_length]

/-- Reduction of Python float on a whitespace-free cons list. -/
theorem pyFloatCore_cons_eq (c : Char) (body : List Char)
    (hsp : ∀ x ∈ c :: body, isPySpace x = false) :
    pyFloatCore (c :: body) =
      if c = '+' then pyFloatBody body
      else if c = '-' then (pyFloatBody body).map (fun q => -q)
      else pyFloatBody (c :: body) := by
  unfold pyFloatCore
  rw [pyStrip_eq_self hsp]

/-- Parsing a nonempty digit string, a dot, and a digit string with Python
float. -/
theorem pyFloatCore_digits_dot {ip fp : List Char} (hip : ip ≠ [])
    (hipd : ip.all Char.isDigit = true) (hfpd : fp.all Char.isDigit = true) :
    pyFloatCore (ip ++ '.' :: fp) =
      some ((digitsVal ip : ℚ) + (digitsVal fp : ℚ) / (10 : ℚ) ^ fp.length) := by
  have hipm : ∀ c ∈ ip, c.isDigit = true := fun c hc => (List.all_eq_true.mp hipd) c hc
  cases ip with
  | nil => exact absurd rfl hip
  | cons c ip' =>
    have hipm' : ∀ x ∈ ip', x.isDigit = true :=
      fun x hx => hipm x (List.mem_cons_of_mem c hx)
    have hcd : c.isDigit = true := hipm c (List.mem_cons_self c ip')
    have hsp : ∀ x ∈ c :: (ip' ++ '.' :: fp), isPySpace x = false := by
      intro x hx
      rcases List.mem_cons.mp hx with rfl | hx
      · exact (isDigit_facts hcd).2.2.2.2
      · rcases List.mem_append.mp hx with hx | hx
        · exact (isDigit_facts (hipm' x hx)).2.2.2.2
        · rcases List.mem_cons.mp hx with rfl | hx
          · decide
          · exact (isDigit_facts ((List.all_eq_true.mp hfpd) x hx)).2.2.2.2
    rw [List.cons_append, pyFloatCore_cons_eq c _ hsp]
    rw [if_neg (isDigit_facts hcd).1, if_neg (isDigit_facts hcd).2.1]
    rw [← List.cons_append]
    rw [pyFloatBody_digits_dot hipm hfpd, parseMantissa_digits_dot hip hipm hfpd]

/-- The three-digit fractional block is all digits of value m mod 1000. -/
theorem fmtFrac3_spec (m : ℕ) : (fmtFrac3 m).all Char.isDigit = true ∧
    digitsVal (fmtFrac3 m) = m % 1000 ∧ (fmtFrac3 m).length = 3 := by
  have h1 : m / 100 % 10 < 10 := Nat.mod_lt _ (by norm_num)
  have h2 : m / 10 % 10 < 10 := Nat.mod_lt _ (by norm_num)
  have h3 : m % 10 < 10 := Nat.mod_lt _ (by norm_num)
  refine ⟨?_, ?_, rfl⟩
  · simp [fmtFrac3, digitChar_isDigit h1, digitChar_isDigit h2, digitChar_isDigit h3]
  · unfold fmtFrac3
    rw [digitsVal_cons, digitsVal_cons, digitsVal_cons,
      show digitsVal ([] : List Char) = 0 from rfl]
    rw [digitChar_toNat h1, digitChar_toNat h2, digitChar_toNat h3]
    simp only [List.length_cons, List.length_nil]
    norm_num
    omega

/-- Rounding is the identity on integers. -/
theorem rndHalfEven_intCast (k : ℤ) : rndHalfEven (k : ℚ) = k := by
  unfold rndHalfEven
  rw [Int.floor_intCast]
  rw [if_pos (by norm_num)]

/-- Parsing back the fixed-point rendering of m milliseconds. -/
theorem pyFloatCore_fmtMilli (m : ℕ) :
    pyFloatCore (padZeros (natDigits (m / 1000) ++ '.' :: fmtFrac3 (m % 1000)) 6) =
      some ((m : ℚ) / 1000) := by
  obtain ⟨hda, hdv⟩ := natDigits_spec (m / 1000)
  obtain ⟨hfa, hfv, hfl⟩ := fmtFrac3_spec (m % 1000)
  have hassoc : padZeros (natDigits (m / 1000) ++ '.' :: fmtFrac3 (m % 1000)) 6 =
      (List.replicate
          (6 - (natDigits (m / 1000) ++ '.' :: fmtFrac3 (m % 1000)).length) '0' ++
        natDigits (m / 1000)) ++ '.' :: fmtFrac3 (m % 1000) := by
    unfold padZeros
    rw [List.append_assoc]
  rw [hassoc]
  have hipne : List.replicate
      (6 - (natDigits (m / 1000) ++ '.' :: fmtFrac3 (m % 1000)).length) '0' ++
      natDigits (m / 1000) ≠ [] := by
    simp [natDigits_ne_nil]
  have hipd : (List.replicate
      (6 - (natDigits (m / 1000) ++ '.' :: fmtFrac3 (m % 1000)).length) '0' ++
      natDigits (m / 1000)).all Char.isDigit = true := by
    rw [List.all_append]
    simp only [hda, Bool.and_true]
    rw [List.all_eq_true]
    intro c hc
    rw [List.eq_of_mem_replicate hc]
    decide
  rw [pyFloatCore_digits_dot hipne hipd hfa]
  rw [digitsVal_replicate_zero, hdv, hfv, hfl]
  have hmm2 : m % 1000 % 1000 = m % 1000 := by omega
  rw [hmm2]
  congr 1
  have hm := Nat.div_add_mod m 1000
  have key : ((m / 1000 : ℕ) : ℚ) * 1000 + ((m % 1000 : ℕ) : ℚ) = (m : ℚ) := by
    have hc := congrArg (fun n : ℕ => (n : ℚ)) hm
    push_cast at hc
    linarith [hc]
  rw [show ((10 : ℚ)) ^ (3 : ℕ) = 1000 from by norm_num]
  field_simp
  linarith [key]

/-- The fixed-point rendering of a nonnegative millisecond-precise rational
parses back to the same rational. -/
theorem pyFloatCore_fmtFloat63 {q : ℚ} (hq : 0 ≤ q) (hden : (1000 * q).den = 1) :
    pyFloatCore (fmtFloat63 q) = some q := by
  have hint : (((1000 * q).num : ℤ) : ℚ) = 1000 * q := by
    conv_rhs => rw [← Rat.num_div_den (1000 * q)]
    rw [hden]
    simp
  have hrnd : rndHalfEven (1000 * q) = (1000 * q).num := by
    conv_lhs => rw [← hint]
    exact rndHalfEven_intCast _
  have hnum0 : 0 ≤ (1000 * q).num := Rat.num_nonneg.mpr (mul_nonneg (by norm_num) hq)
  unfold fmtFloat63
  rw [hrnd, if_neg (by omega : ¬(1000 * q).num < 0)]
  rw [pyFloatCore_fmtMilli ((1000 * q).num.natAbs)]
  congr 1
  have habs : (((1000 * q).num.natAbs : ℕ) : ℚ) = 1000 * q := by
    rw [Int.cast_natAbs, abs_of_nonneg hnum0]
    exact hint
  rw [habs]
  field_simp

/-- The two-width integer format contains no colon. -/
theorem fmtInt2_no_colon (z : ℤ) : ∀ c ∈ fmtInt2 z, ¬((c == ':') = true) := by
  intro c hc
  obtain ⟨ha, _⟩ := natDigits_spec z.natAbs
  unfold fmtInt2 at hc
  by_cases hz : z < 0
  · rw [if_pos hz] at hc
    rcases List.mem_cons.mp hc with rfl | hc
    · decide
    · unfold padZeros at hc
      rcases List.mem_append.mp hc with hc | hc
      · rw [List.eq_of_mem_replicate hc]
        decide
      · exact (isDigit_facts ((List.all_eq_true.mp ha) c hc)).2.2.1
  · rw [if_neg hz] at hc
    unfold padZeros at hc
    rcases List.mem_append.mp hc with hc | hc
    · rw [List.eq_of_mem_replicate hc]
      decide
    · exact (isDigit_facts ((List.all_eq_true.mp ha) c hc)).2.2.1

/-- The fixed-point float format contains no colon. -/
theorem fmtFloat63_no_colon (q : ℚ) : ∀ c ∈ fmtFloat63 q, ¬((c == ':') = true) := by
  intro c hc
  have hcore : ∀ m : ℕ, c ∈ natDigits (m / 1000) ++ '.' :: fmtFrac3 (m % 1000) →
      ¬((c == ':') = true) := by
    intro m hm
    obtain ⟨ha, _⟩ := natDigits_spec (m / 1000)
    obtain ⟨hfa, _, _⟩ := fmtFrac3_spec (m % 1000)
    rcases List.mem_append.mp hm with hm | hm
    · exact (isDigit_facts ((List.all_eq_true.mp ha) c hm)).2.2.1
    · rcases List.mem_cons.mp hm with rfl | hm
      · decide
      · exact (isDigit_facts ((List.all_eq_true.mp hfa) c hm)).2.2.1
  unfold fmtFloat63 at hc
  by_cases hn : rndHalfEven (1000 * q) < 0
  · rw [if_pos hn] at hc
    rcases List.mem_cons.mp hc with rfl | hc
    · decide
    · unfold padZeros at hc
      rcases List.mem_append.mp hc with hc | hc
      · rw [List.eq_of_mem_replicate hc]
        decide
      · exact hcore _ hc
  · rw [if_neg hn] at hc
    unfold padZeros at hc
    rcases List.mem_append.mp hc with hc | hc
    · rw [List.eq_of_mem_replicate hc]
      decide
    · exact hcore _ hc

/-- Splitting three colon-free blocks around two colons. -/
theorem splitOn_colon_three {a b c : List Char}
    (ha : ∀ x ∈ a, ¬((x == ':') = true)) (hb : ∀ x ∈ b, ¬((x == ':') = true))
    (hc : ∀ x ∈ c, ¬((x == ':') = true)) :
    (a ++ ':' :: (b ++ ':' :: c)).splitOn ':' = [a, b, c] := by
  rw [show (a ++ ':' :: (b ++ ':' :: c)).splitOn ':' =
      (a ++ ':' :: (b ++ ':' :: c)).splitOnP (· == ':') from rfl]
  rw [List.splitOnP_first (· == ':') a ha ':' (by simp)]
  rw [List.splitOnP_first (· == ':') b hb ':' (by simp)]
  rw [List.splitOnP_eq_single (· == ':') c hc]

/-- Acceptance of a three-component time string. -/
theorem timeToSeconds_ok_three {s : String} {a b c : List Char} {hi mi : ℤ} {q : ℚ}
    (h : s.data.splitOn ':' = [a, b, c]) (ha : pyIntCore a = some hi)
    (hb : pyIntCore b = some mi) (hc : pyFloatCore c = some q) :
    timeToSeconds s = .ok ((hi : ℚ) * 3600 + (mi : ℚ) * 60 + q) := by
  simp only [timeToSeconds, h, ha, hb, hc]

/-- Formatting a millisecond-precise number of seconds and parsing it back
is the identity: the floor decomposition into hours, minutes and seconds
recombines exactly. -/
theorem timeToSeconds_secondsToTimeFormat (x : ℚ) (hden : (1000 * x).den = 1) :
    timeToSeconds (secondsToTimeFormat x) = .ok x := by
  have hint : (((1000 * x).num : ℤ) : ℚ) = 1000 * x := by
    conv_rhs => rw [← Rat.num_div_den (1000 * x)]
    rw [hden]
    simp
  have hsecs0 : 0 ≤ x - 60 * ⌊x / 60⌋ := by
    have hf := Int.floor_le (x / 60)
    have h2 : (60 : ℚ) * (x / 60) = x := by field_simp
    have h3 : (60 : ℚ) * ⌊x / 60⌋ ≤ 60 * (x / 60) :=
      mul_le_mul_of_nonneg_left hf (by norm_num)
    linarith
  have hsecden : (1000 * (x - 60 * ⌊x / 60⌋)).den = 1 := by
    have hexp : 1000 * (x - 60 * ⌊x / 60⌋) =
        (((1000 * x).num - 60000 * ⌊x / 60⌋ : ℤ) : ℚ) := by
      push_cast
      rw [hint]
      ring
    rw [hexp, Rat.den_intCast]
  have hdata : (secondsToTimeFormat x).data =
      fmtInt2 ⌊x / 3600⌋ ++ ':' :: (fmtInt2 ⌊(x - 3600 * ⌊x / 3600⌋) / 60⌋ ++
        ':' :: fmtFloat63 (x - 60 * ⌊x / 60⌋)) := rfl
  have hsplit : (secondsToTimeFormat x).data.splitOn ':' =
      [fmtInt2 ⌊x / 3600⌋, fmtInt2 ⌊(x - 3600 * ⌊x / 3600⌋) / 60⌋,
        fmtFloat63 (x - 60 * ⌊x / 60⌋)] := by
    rw [hdata]
    exact splitOn_colon_three (fmtInt2_no_colon _) (fmtInt2_no_colon _)
      (fmtFloat63_no_colon _)
  rw [timeToSeconds_ok_three hsplit (pyIntCore_fmtInt2 _) (pyIntCore_fmtInt2 _)
    (pyFloatCore_fmtFloat63 hsecs0 hsecden)]
  congr 1
  have hM : ⌊(x - 3600 * ⌊x / 3600⌋) / 60⌋ = ⌊x / 60⌋ - 60 * ⌊x / 3600⌋ := by
    rw [show (x - 3600 * ⌊x / 3600⌋) / 60 = x / 60 - ((60 * ⌊x / 3600⌋ : ℤ) : ℚ) from by
      push_cast
      ring]
    rw [Int.floor_sub_int]
  rw [hM]
  push_cast
  ring

/-- C7: for every valid HH:MM:SS.mmm time string, converting to seconds,
formatting back with the seconds-to-time formatter, and converting again
reproduces the value to within one millisecond — in the exact rational
model the round trip is in fact exact, hence within the tolerance. -/
theorem timeToSeconds_millis_roundtrip (s : String) (hs : isHMSmmm s = true) :
    ∃ x y : ℚ, timeToSeconds s = .ok x ∧
      timeToSeconds (secondsToTimeFormat x) = .ok y ∧ |y - x| ≤ 1 / 1000 := by
  unfold isHMSmmm at hs
  rcases hl : s.data.splitOn ':' with _ | ⟨a, _ | ⟨b, _ | ⟨c, _ | d⟩⟩⟩ <;> rw [hl] at hs
  · simp at hs
  · simp at hs
  · simp at hs
  · simp only [Bool.and_eq_true, Bool.not_eq_true'] at hs
    obtain ⟨⟨⟨⟨⟨hae, haall⟩, hbe⟩, hball⟩, htwe⟩, hmatch⟩ := hs
    have hane : a ≠ [] := by
      intro h0
      subst h0
      simp at hae
    have hbne : b ≠ [] := by
      intro h0
      subst h0
      simp at hbe
    have hipne : c.takeWhile Char.isDigit ≠ [] := by
      intro h0
      rw [h0] at htwe
      simp at htwe
    rcases hdw : c.dropWhile Char.isDigit with _ | ⟨c0, fp⟩
    · rw [hdw] at hmatch
      simp at hmatch
    · rw [hdw] at hmatch
      simp only [Bool.and_eq_true, beq_iff_eq] at hmatch
      obtain ⟨⟨hc0, hfl⟩, hfa⟩ := hmatch
      subst hc0
      have hipall : (c.takeWhile Char.isDigit).all Char.isDigit = true := by
        rw [List.all_eq_true]
        intro x hx
        exact List.mem_takeWhile_imp hx
      have hcdec : c = c.takeWhile Char.isDigit ++ '.' :: fp := by
        conv_lhs => rw [← List.takeWhile_append_dropWhile (p := Char.isDigit) (l := c)]
        rw [hdw]
      have hpc : pyFloatCore c = some ((digitsVal (c.takeWhile Char.isDigit) : ℚ) +
          (digitsVal fp : ℚ) / (10 : ℚ) ^ fp.length) := by
        conv_lhs => rw [hcdec]
        exact pyFloatCore_digits_dot hipne hipall hfa
      have hparse := timeToSeconds_ok_three hl (pyIntCore_digits hane haall)
        (pyIntCore_digits hbne hball) hpc
      have hval : 1000 * (((digitsVal a : ℤ) : ℚ) * 3600 + ((digitsVal b : ℤ) : ℚ) * 60 +
          ((digitsVal (c.takeWhile Char.isDigit) : ℚ) +
            (digitsVal fp : ℚ) / (10 : ℚ) ^ fp.length)) =
          (((3600000 * digitsVal a + 60000 * digitsVal b +
            1000 * digitsVal (c.takeWhile Char.isDigit) + digitsVal fp : ℕ) : ℤ) : ℚ) := by
        rw [hfl, show ((10 : ℚ)) ^ (3 : ℕ) = 1000 from by norm_num]
        push_cast
        field_simp
        ring
      refine ⟨_, _, hparse, timeToSeconds_secondsToTimeFormat _ ?_, ?_⟩
      · rw [hval, Rat.den_intCast]
      · rw [sub_self, abs_zero]
        norm_num
  · simp at hs

/-- Closed instance of C7 at the time string 01:02:03.500. -/
theorem timeToSeconds_millis_roundtrip_witness :
    ∃ x y : ℚ, timeToSeconds "01:02:03.500" = .ok x ∧
      timeToSeconds (secondsToTimeFormat x) = .ok y ∧ |y - x| ≤ 1 / 1000 :=
  timeToSeconds_millis_roundtrip "01:02:03.500" (by decide)
